import Mathlib

/-!
# Battery management over CAN: safety supervisor and metric updates

A shallow embedding of `canbus_battery_management.cpp`.

* A C++ `float` value is the rational number (`ℚ`) it denotes.  The one float
  computation of the source, `(float)CAN_MSG[0] / 10.0` stored in a `float`, is
  rounded as IEEE-754 does (`floatQuotient`).  The limits `MAX_VOLTAGE`,
  `MIN_VOLTAGE`, `MAX_TEMPERATURE` and the readings of the sensors are taken at
  the values written.
* The global array `batteries` is a list of records; an access `batteries[i]`
  outside the list makes the operation fail (`none`).
* Calls to `isolateBattery` and `alert` are recorded, in program order, as a
  list of `Effect`s.
* The sensor-read functions have empty bodies in the source; the values they
  hand back are parameters (`Sensors`).  What the CAN controller delivers is a
  parameter as well (`Frame`).
-/

namespace BatteryManagement

/-! ## Constants -/

def NUM_BATTERIES : Nat := 40
def MAX_VOLTAGE : ℚ := 4.2
def MIN_VOLTAGE : ℚ := 3.0
def MAX_TEMPERATURE : ℚ := 60.0

/-! ## Data model -/

/-- The `struct Battery` of the source. -/
structure Battery where
  ID : Int
  type : String
  voltage : ℚ
  current : ℚ
  temperature : ℚ
  SoC : ℚ
  cycleCount : Int
  capacity : ℚ
  deriving DecidableEq

/-- The global array `Battery batteries[NUM_BATTERIES]`. -/
abbrev Registry := List Battery

/-- An element of the global array before `setup` runs: static storage is
zero-initialised and the `String` member is default-constructed (empty). -/
def zeroBattery : Battery :=
  { ID := 0, type := "", voltage := 0, current := 0, temperature := 0,
    SoC := 0, cycleCount := 0, capacity := 0 }

/-- The global array as it is when `setup` starts. -/
def batteries0 : Registry := List.replicate NUM_BATTERIES zeroBattery

/-- Observable calls made by the safety check, in program order. -/
inductive Effect where
  | isolate (ID : Int)
  | alert (message : String)
  deriving DecidableEq

/-! ## Safety check -/

/-- The source's `isolateBattery`: the body is empty, the record is untouched;
the call itself is recorded. -/
def isolateBattery (battery : Battery) : Battery × List Effect :=
  (battery, [Effect.isolate battery.ID])

/-- The source's `alert`: the body is empty; the call is recorded with its
message. -/
def alert (message : String) : List Effect :=
  [Effect.alert message]

/-- Message of the first alert of `checkSafety`. -/
def voltageAlert (ID : Int) : String :=
  "Voltage out of range for battery: " ++ toString ID

/-- Message of the second alert of `checkSafety`. -/
def temperatureAlert (ID : Int) : String :=
  "Temperature too high for battery: " ++ toString ID

/-- First `if` of `checkSafety`. -/
def checkVoltage (battery : Battery) : Battery × List Effect :=
  if battery.voltage > MAX_VOLTAGE ∨ battery.voltage < MIN_VOLTAGE then
    ((isolateBattery battery).1,
      (isolateBattery battery).2 ++ alert (voltageAlert (isolateBattery battery).1.ID))
  else
    (battery, [])

/-- Second `if` of `checkSafety`. -/
def checkTemperature (battery : Battery) : Battery × List Effect :=
  if battery.temperature > MAX_TEMPERATURE then
    ((isolateBattery battery).1,
      (isolateBattery battery).2 ++ alert (temperatureAlert (isolateBattery battery).1.ID))
  else
    (battery, [])

/-- The source's `checkSafety`: the voltage check, then the temperature check
on the record the first one leaves. -/
def checkSafety (battery : Battery) : Battery × List Effect :=
  ((checkTemperature (checkVoltage battery).1).1,
    (checkVoltage battery).2 ++ (checkTemperature (checkVoltage battery).1).2)

/-! ## Bus frames and sensor readings -/

/-- A received CAN frame: its arbitration identifier, as the `int` that
`CAN.getCanId()` yields, and payload byte 0 (`CAN_MSG[0]`), an unsigned 8-bit
value. -/
structure Frame where
  canId : Int
  byte0 : Fin 256

/-! ## Floating-point rounding -/

/-- Number of halvings that bring `n` below 2, at most `fuel` of them. -/
def log2Fuel : Nat → Nat → Nat
  | 0, _ => 0
  | fuel + 1, n => if n < 2 then 0 else log2Fuel fuel (n / 2) + 1

/-- The position of the leading bit of `n`: `2 ^ bitLog n ≤ n < 2 ^ (bitLog n + 1)`
for `n > 0`. -/
def bitLog (n : Nat) : Nat := log2Fuel n n

/-- The fraction `n / d` times `2 ^ s`, as numerator and denominator. -/
def scaleFraction (n d : Nat) (s : Int) : Nat × Nat :=
  if 0 ≤ s then (n * 2 ^ s.toNat, d) else (n, d * 2 ^ (-s).toNat)

/-- The binary exponent `e` of the fraction `n / d` (`n, d > 0`):
`2 ^ e ≤ n / d < 2 ^ (e + 1)`. -/
def floorLog2 (n d : Nat) : Int :=
  if d * 2 ^ (bitLog n - bitLog d) ≤ n * 2 ^ (bitLog d - bitLog n) then
    (bitLog n : Int) - (bitLog d : Int)
  else
    (bitLog n : Int) - (bitLog d : Int) - 1

/-- The integer nearest to `n / d`, a tie going to the even one. -/
def roundHalfEven (n d : Nat) : Nat :=
  if 2 * (n % d) < d then n / d
  else if d < 2 * (n % d) then n / d + 1
  else if (n / d) % 2 = 0 then n / d
  else n / d + 1

/-- The fraction `n / d` rounded to a binary floating-point number with a
significand of `p` bits (round to nearest, ties to even), as numerator and
denominator.  The exponent range is not limited: no overflow and no subnormal
number arises for the values the program computes. -/
def roundBits (p n d : Nat) : Nat × Nat :=
  if n = 0 then (0, 1)
  else
    scaleFraction
      (roundHalfEven (scaleFraction n d ((p : Int) - 1 - floorLog2 n d)).1
        (scaleFraction n d ((p : Int) - 1 - floorLog2 n d)).2)
      1 (-((p : Int) - 1 - floorLog2 n d))

/-- The expression `(float)CAN_MSG[0] / 10.0` assigned to a `float`, for the
byte `b`, as numerator and denominator: the byte is exact as a `float`, the
division by the `double` literal `10.0` is rounded to 53 bits, the assignment
rounds the quotient to the 24 bits of a `float`. -/
def byteOver10 (b : Nat) : Nat × Nat :=
  roundBits 24 (roundBits 53 b 10).1 (roundBits 53 b 10).2

/-- The `float` that `(float)CAN_MSG[0] / 10.0` stores, as a rational. -/
def floatQuotient (byte : Fin 256) : ℚ :=
  ((byteOver10 byte.val).1 : ℚ) / ((byteOver10 byte.val).2 : ℚ)

/-- Values handed back by the sensor-read functions of the source
(`readCurrent`, `readTemperature`, `readSoC`, `readCycleCount`,
`readCapacity`), each a function of the battery ID it is called with. -/
structure Sensors where
  readCurrent : Int → ℚ
  readTemperature : Int → ℚ
  readSoC : Int → ℚ
  readCycleCount : Int → Int
  readCapacity : Int → ℚ

/-- What one call of `updateBatteryMetrics` meets: the frame the controller
holds (`none` when `CAN.checkReceive()` is false) and the sensor values. -/
structure Poll where
  can : Option Frame
  sensors : Sensors

/-! ## Metric update -/

/-- The source's `readVoltageFromCAN`.  `some v`: the function returns `true`
after writing `v` to its reference argument; `none`: it returns `false` and
the reference is untouched.  `CAN.readMsgBuf(&batteryID, ..)` overwrites only
the local copy of `batteryID`, which is not used afterwards. -/
def readVoltageFromCAN (can : Option Frame) (_batteryID : Int) : Option ℚ :=
  match can with
  | some frame => some (floatQuotient frame.byte0)
  | none => none

/-- The source's `updateBatteryMetrics`. -/
def updateBatteryMetrics (poll : Poll) (battery : Battery) : Battery :=
  let b1 : Battery :=
    match readVoltageFromCAN poll.can battery.ID with
    | some voltage => { battery with voltage := voltage }
    | none => battery
  let b2 : Battery := { b1 with current := poll.sensors.readCurrent b1.ID }
  let b3 : Battery := { b2 with temperature := poll.sensors.readTemperature b2.ID }
  let b4 : Battery := { b3 with SoC := poll.sensors.readSoC b3.ID }
  let b5 : Battery := { b4 with cycleCount := poll.sensors.readCycleCount b4.ID }
  { b5 with capacity := poll.sensors.readCapacity b5.ID }

/-- Iterations `i, i+1, ..` of the loop of `initializeBatteries`; `n` is the
number of iterations left (`NUM_BATTERIES - i`).  `polls i` is what the call
of `updateBatteryMetrics` in iteration `i` meets. -/
def initializeLoop (polls : Nat → Poll) : Nat → Nat → Registry → Option Registry
  | 0, _, batteries => some batteries
  | n + 1, i, batteries =>
    match batteries[i]? with
    | none => none
    | some b =>
      initializeLoop polls n (i + 1)
        (batteries.set i
          (updateBatteryMetrics (polls i) { b with ID := (i : Int), type := "Li-ion" }))

/-- The source's `initializeBatteries`. -/
def initializeBatteries (polls : Nat → Poll) (batteries : Registry) : Option Registry :=
  initializeLoop polls NUM_BATTERIES 0 batteries

/-- Iterations `i, i+1, ..` of the first loop of `loop()`:
`updateBatteryMetrics(batteries[i])`. -/
def updateLoop (polls : Nat → Poll) : Nat → Nat → Registry → Option Registry
  | 0, _, batteries => some batteries
  | n + 1, i, batteries =>
    match batteries[i]? with
    | none => none
    | some b =>
      updateLoop polls n (i + 1) (batteries.set i (updateBatteryMetrics (polls i) b))

/-- The first loop of `loop()`. -/
def updateAllBatteries (polls : Nat → Poll) (batteries : Registry) : Option Registry :=
  updateLoop polls NUM_BATTERIES 0 batteries

/-- Iterations `i, i+1, ..` of the safety loop of `loop()`:
`checkSafety(batteries[i])`, with the calls it makes. -/
def checkLoop : Nat → Nat → Registry → Option (Registry × List Effect)
  | 0, _, batteries => some (batteries, [])
  | n + 1, i, batteries =>
    match batteries[i]? with
    | none => none
    | some b =>
      match checkLoop n (i + 1) (batteries.set i (checkSafety b).1) with
      | none => none
      | some (batteries1, effects) => some (batteries1, (checkSafety b).2 ++ effects)

/-- The safety loop of `loop()`. -/
def checkAllBatteries (batteries : Registry) : Option (Registry × List Effect) :=
  checkLoop NUM_BATTERIES 0 batteries

/-! ## Frame handling -/

/-- Iterations `i, i+1, ..` of the search loop of `handleCANMessage`; `n` is
the number of iterations left.  The second component lists the indices at
which `batteries` was accessed, in order. -/
def handleLoop (batteryID : Int) (SoC : ℚ) :
    Nat → Nat → Registry → Option (Registry × List Nat)
  | 0, _, batteries => some (batteries, [])
  | n + 1, i, batteries =>
    match batteries[i]? with
    | none => none
    | some b =>
      if b.ID = batteryID then
        some (batteries.set i { b with SoC := SoC }, [i])
      else
        match handleLoop batteryID SoC n (i + 1) batteries with
        | none => none
        | some (batteries1, accessed) => some (batteries1, i :: accessed)

/-- The source's `handleCANMessage`; `frame` holds `CAN.getCanId()` and
`CAN_MSG[0]`.  The result is the array afterwards and the indices accessed. -/
def handleCANMessage (frame : Frame) (batteries : Registry) :
    Option (Registry × List Nat) :=
  if frame.canId ≥ 0x100 ∧ frame.canId ≤ 0x13F then
    handleLoop (frame.canId - 0x100) (floatQuotient frame.byte0) NUM_BATTERIES 0 batteries
  else
    some (batteries, [])

/-! ## Registry identity -/

/-- The array has `NUM_BATTERIES` records and the record at index `i` has
`ID == i`. -/
def IdInvariant (batteries : Registry) : Prop :=
  batteries.length = NUM_BATTERIES ∧
    ∀ i, i < NUM_BATTERIES → (batteries[i]?).map Battery.ID = some (i : Int)

instance (batteries : Registry) : Decidable (IdInvariant batteries) := by
  unfold IdInvariant
  infer_instance

/-! ## Concrete inputs -/

/-- Sensor values of a battery at rest: 25 degrees, SoC 50. -/
def roomSensors : Sensors :=
  { readCurrent := fun _ => 0, readTemperature := fun _ => 25, readSoC := fun _ => 50,
    readCycleCount := fun _ => 0, readCapacity := fun _ => 2 }

/-- No frame is ever available. -/
def noFramePolls : Nat → Poll :=
  fun _ => { can := none, sensors := roomSensors }

/-- Battery 0 at 4.5 V and 25 degrees (Scenario A). -/
def scenarioA : Battery :=
  { ID := 0, type := "Li-ion", voltage := 4.5, current := 0, temperature := 25,
    SoC := 50, cycleCount := 0, capacity := 2 }

/-- Battery 5 at 3.8 V and 65 degrees (Scenario B). -/
def scenarioB : Battery :=
  { ID := 5, type := "Li-ion", voltage := 3.8, current := 0, temperature := 65.0,
    SoC := 50, cycleCount := 0, capacity := 2 }

/-- Battery 1 at 4.5 V and 65 degrees: both limits exceeded. -/
def bothOut : Battery :=
  { ID := 1, type := "Li-ion", voltage := 4.5, current := 0, temperature := 65,
    SoC := 50, cycleCount := 0, capacity := 2 }

/-- Battery 2 at 2.5 V and 1.5 A, under the minimum voltage (Scenario D). -/
def scenarioD : Battery :=
  { ID := 2, type := "Li-ion", voltage := 2.5, current := 1.5, temperature := 25,
    SoC := 50, cycleCount := 0, capacity := 2 }

/-- A frame addressed to battery 2 with payload byte 39 (3.9 V). -/
def frameTo2 : Frame := { canId := 0x102, byte0 := ⟨39, by omega⟩ }

/-- A frame addressed to battery 3 with payload byte 37 (3.7 V). -/
def frameTo3 : Frame := { canId := 0x103, byte0 := ⟨37, by omega⟩ }

/-- A frame whose identifier is `BASE + N + 3`, carrying 99 (Scenario C). -/
def frameScenarioC : Frame := { canId := 0x100 + 40 + 3, byte0 := ⟨99, by omega⟩ }

/-- A frame addressed to battery 7 carrying 255. -/
def frameTo7 : Frame := { canId := 0x107, byte0 := ⟨255, by omega⟩ }

/-- A frame addressed to battery 7 with payload byte 1. -/
def frameTo7Low : Frame := { canId := 0x107, byte0 := ⟨1, by omega⟩ }

/-- A frame addressed to battery 0 with payload byte 37. -/
def frameTo0 : Frame := { canId := 0x100, byte0 := ⟨37, by omega⟩ }

/-- The frame `frameTo3` is available to the first call of
`updateBatteryMetrics` and no frame afterwards. -/
def frameTo3Polls : Nat → Poll :=
  fun i => { can := if i = 0 then some frameTo3 else none, sensors := roomSensors }

/-! ## Lemmas on the safety check -/

theorem voltageAlert_ne_temperatureAlert (i j : Int) :
    voltageAlert i ≠ temperatureAlert j := by
  intro h
  have h2 := congrArg String.data h
  simp [voltageAlert, temperatureAlert, String.data_append] at h2

theorem checkSafety_fst (b : Battery) : (checkSafety b).1 = b := by
  unfold checkSafety checkTemperature checkVoltage isolateBattery
  split_ifs <;> rfl

theorem checkSafety_snd (b : Battery) :
    (checkSafety b).2 =
      (if b.voltage > MAX_VOLTAGE ∨ b.voltage < MIN_VOLTAGE then
        [Effect.isolate b.ID, Effect.alert (voltageAlert b.ID)] else []) ++
      (if b.temperature > MAX_TEMPERATURE then
        [Effect.isolate b.ID, Effect.alert (temperatureAlert b.ID)] else []) := by
  unfold checkSafety checkTemperature checkVoltage isolateBattery alert
  split_ifs <;> simp_all

/-! ## Lemmas on the rounded quotient -/

/-- The facts on `byteOver10` that are checked byte by byte: the denominator
is a power of two, the numerator fits 24 bits, the value is at most 25.5 and
within a relative distance `2 ^ (-24)` of `b / 10`, it is `b / 10` exactly for
the multiples of 5 only, and rounding `b / 10` to 24 bits at once gives the
same number (so the value is the same where `double` has the width of
`float`). -/
theorem byteOver10_checked : ∀ b : Fin 256,
    0 < (byteOver10 b.val).2 ∧
    2 ^ bitLog (byteOver10 b.val).2 = (byteOver10 b.val).2 ∧
    (byteOver10 b.val).1 < 2 ^ 24 ∧
    (byteOver10 b.val).1 * 10 ≤ 255 * (byteOver10 b.val).2 ∧
    b.val * (byteOver10 b.val).2 * 16777215 ≤ 10 * (byteOver10 b.val).1 * 16777216 ∧
    10 * (byteOver10 b.val).1 * 16777216 ≤ b.val * (byteOver10 b.val).2 * 16777217 ∧
    (10 * (byteOver10 b.val).1 = b.val * (byteOver10 b.val).2 ↔ b.val % 5 = 0) ∧
    byteOver10 b.val = roundBits 24 b.val 10 := by
  decide!

theorem floatQuotient_bounds (byte : Fin 256) :
    0 ≤ floatQuotient byte ∧ floatQuotient byte ≤ 25.5 ∧ floatQuotient byte ≤ 100 := by
  obtain ⟨hd, _, _, h1, _⟩ := byteOver10_checked byte
  have hdq : (0 : ℚ) < ((byteOver10 byte.val).2 : ℚ) := by exact_mod_cast hd
  have h1q : (((byteOver10 byte.val).1 * 10 : ℕ) : ℚ) ≤ ((255 * (byteOver10 byte.val).2 : ℕ) : ℚ) := by
    exact_mod_cast h1
  push_cast at h1q
  have hle : floatQuotient byte ≤ 25.5 := by
    unfold floatQuotient
    rw [div_le_iff₀ hdq]
    norm_num
    linarith
  refine ⟨?_, hle, ?_⟩
  · unfold floatQuotient
    positivity
  · have : (25.5 : ℚ) ≤ 100 := by norm_num
    linarith

theorem floatQuotient_near (byte : Fin 256) :
    (byte.val : ℚ) / 10 * (1 - 1 / 2 ^ 24) ≤ floatQuotient byte ∧
    floatQuotient byte ≤ (byte.val : ℚ) / 10 * (1 + 1 / 2 ^ 24) := by
  obtain ⟨hd, _, _, _, h2, h3, _⟩ := byteOver10_checked byte
  have hdq : (0 : ℚ) < ((byteOver10 byte.val).2 : ℚ) := by exact_mod_cast hd
  have h2q : ((byte.val * (byteOver10 byte.val).2 * 16777215 : ℕ) : ℚ) ≤
      ((10 * (byteOver10 byte.val).1 * 16777216 : ℕ) : ℚ) := by exact_mod_cast h2
  have h3q : ((10 * (byteOver10 byte.val).1 * 16777216 : ℕ) : ℚ) ≤
      ((byte.val * (byteOver10 byte.val).2 * 16777217 : ℕ) : ℚ) := by exact_mod_cast h3
  push_cast at h2q h3q
  unfold floatQuotient
  constructor
  · rw [le_div_iff₀ hdq]
    norm_num
    linarith
  · rw [div_le_iff₀ hdq]
    norm_num
    linarith

theorem floatQuotient_exact_iff (byte : Fin 256) :
    floatQuotient byte = (byte.val : ℚ) / 10 ↔ byte.val % 5 = 0 := by
  obtain ⟨hd, _, _, _, _, _, h4, _⟩ := byteOver10_checked byte
  have hdq : ((byteOver10 byte.val).2 : ℚ) ≠ 0 := by
    have : (0 : ℚ) < ((byteOver10 byte.val).2 : ℚ) := by exact_mod_cast hd
    exact ne_of_gt this
  rw [← h4]
  unfold floatQuotient
  rw [div_eq_div_iff hdq (by norm_num)]
  constructor
  · intro h
    have h5 : ((10 * (byteOver10 byte.val).1 : ℕ) : ℚ) =
        ((byte.val * (byteOver10 byte.val).2 : ℕ) : ℚ) := by
      push_cast
      linarith
    exact_mod_cast h5
  · intro h
    have h5 : ((10 * (byteOver10 byte.val).1 : ℕ) : ℚ) =
        ((byte.val * (byteOver10 byte.val).2 : ℕ) : ℚ) := by exact_mod_cast h
    push_cast at h5
    linarith

theorem floatQuotient_1 : floatQuotient ⟨1, by omega⟩ = 13421773 / 134217728 := by
  have h : byteOver10 1 = (13421773, 134217728) := by decide!
  unfold floatQuotient
  rw [h]
  norm_num

theorem floatQuotient_37 : floatQuotient ⟨37, by omega⟩ = 15518925 / 4194304 := by
  have h : byteOver10 37 = (15518925, 4194304) := by decide!
  unfold floatQuotient
  rw [h]
  norm_num

theorem floatQuotient_39 : floatQuotient ⟨39, by omega⟩ = 8178893 / 2097152 := by
  have h : byteOver10 39 = (16357786, 4194304) := by decide!
  unfold floatQuotient
  rw [h]
  norm_num

/-! ## Lemmas on the metric update -/

theorem updateBatteryMetrics_ID (poll : Poll) (b : Battery) :
    (updateBatteryMetrics poll b).ID = b.ID := by
  unfold updateBatteryMetrics readVoltageFromCAN
  cases poll.can <;> rfl

theorem updateBatteryMetrics_voltage_some (sensors : Sensors) (frame : Frame) (b : Battery) :
    (updateBatteryMetrics { can := some frame, sensors := sensors } b).voltage =
      floatQuotient frame.byte0 := by
  simp [updateBatteryMetrics, readVoltageFromCAN]

theorem updateBatteryMetrics_voltage_none (sensors : Sensors) (b : Battery) :
    (updateBatteryMetrics { can := none, sensors := sensors } b).voltage = b.voltage := by
  simp [updateBatteryMetrics, readVoltageFromCAN]

theorem updateBatteryMetrics_current (poll : Poll) (b : Battery) :
    (updateBatteryMetrics poll b).current = poll.sensors.readCurrent b.ID := by
  unfold updateBatteryMetrics readVoltageFromCAN
  cases poll.can <;> rfl

theorem updateBatteryMetrics_temperature (poll : Poll) (b : Battery) :
    (updateBatteryMetrics poll b).temperature = poll.sensors.readTemperature b.ID := by
  unfold updateBatteryMetrics readVoltageFromCAN
  cases poll.can <;> rfl

theorem updateBatteryMetrics_SoC (poll : Poll) (b : Battery) :
    (updateBatteryMetrics poll b).SoC = poll.sensors.readSoC b.ID := by
  unfold updateBatteryMetrics readVoltageFromCAN
  cases poll.can <;> rfl

/-! ## Lemmas on the loops over the array -/

theorem initializeLoop_spec (polls : Nat → Poll) :
    ∀ (n i : Nat) (bs : Registry), i + n ≤ bs.length →
      ∃ bs1, initializeLoop polls n i bs = some bs1 ∧ bs1.length = bs.length ∧
        ∀ j, bs1[j]? =
          if i ≤ j ∧ j < i + n then
            (bs[j]?).map (fun b =>
              updateBatteryMetrics (polls j) { b with ID := (j : Int), type := "Li-ion" })
          else bs[j]? := by
  intro n
  induction n with
  | zero =>
    intro i bs _
    refine ⟨bs, rfl, rfl, ?_⟩
    intro j
    rw [if_neg (by omega)]
  | succ n ih =>
    intro i bs h
    have hi : i < bs.length := by omega
    obtain ⟨b, hb⟩ : ∃ b, bs[i]? = some b := ⟨bs[i], List.getElem?_eq_getElem hi⟩
    obtain ⟨bs1, h1, h2, h3⟩ := ih (i + 1)
      (bs.set i (updateBatteryMetrics (polls i) { b with ID := (i : Int), type := "Li-ion" }))
      (by simp; omega)
    refine ⟨bs1, ?_, ?_, ?_⟩
    · simp only [initializeLoop, hb]
      exact h1
    · simpa using h2
    · intro j
      rw [h3 j, List.getElem?_set]
      by_cases hij : i = j
      · subst hij
        simp [hi, hb]
      · by_cases hlt : i + 1 ≤ j ∧ j < i + 1 + n
        · have : i ≤ j ∧ j < i + (n + 1) := by omega
          simp [hij, hlt, this]
        · have : ¬ (i ≤ j ∧ j < i + (n + 1)) := by omega
          simp [hij, hlt, this]

theorem updateLoop_spec (polls : Nat → Poll) :
    ∀ (n i : Nat) (bs : Registry), i + n ≤ bs.length →
      ∃ bs1, updateLoop polls n i bs = some bs1 ∧ bs1.length = bs.length ∧
        ∀ j, bs1[j]? =
          if i ≤ j ∧ j < i + n then (bs[j]?).map (updateBatteryMetrics (polls j))
          else bs[j]? := by
  intro n
  induction n with
  | zero =>
    intro i bs _
    refine ⟨bs, rfl, rfl, ?_⟩
    intro j
    rw [if_neg (by omega)]
  | succ n ih =>
    intro i bs h
    have hi : i < bs.length := by omega
    obtain ⟨b, hb⟩ : ∃ b, bs[i]? = some b := ⟨bs[i], List.getElem?_eq_getElem hi⟩
    obtain ⟨bs1, h1, h2, h3⟩ := ih (i + 1)
      (bs.set i (updateBatteryMetrics (polls i) b)) (by simp; omega)
    refine ⟨bs1, ?_, ?_, ?_⟩
    · simp only [updateLoop, hb]
      exact h1
    · simpa using h2
    · intro j
      rw [h3 j, List.getElem?_set]
      by_cases hij : i = j
      · subst hij
        simp [hi, hb]
      · by_cases hlt : i + 1 ≤ j ∧ j < i + 1 + n
        · have : i ≤ j ∧ j < i + (n + 1) := by omega
          simp [hij, hlt, this]
        · have : ¬ (i ≤ j ∧ j < i + (n + 1)) := by omega
          simp [hij, hlt, this]

theorem set_same (bs : Registry) (i : Nat) (b : Battery) (h : bs[i]? = some b) :
    bs.set i b = bs := by
  apply List.ext_getElem?
  intro j
  rw [List.getElem?_set]
  by_cases hij : i = j
  · subst hij
    have hi : i < bs.length := by
      rcases List.getElem?_eq_some.mp h with ⟨hlt, _⟩
      exact hlt
    simp [hi, h]
  · simp [hij]

theorem checkLoop_registry :
    ∀ (n i : Nat) (bs : Registry), i + n ≤ bs.length →
      ∃ effects, checkLoop n i bs = some (bs, effects) := by
  intro n
  induction n with
  | zero =>
    intro i bs _
    exact ⟨[], rfl⟩
  | succ n ih =>
    intro i bs h
    have hi : i < bs.length := by omega
    obtain ⟨b, hb⟩ : ∃ b, bs[i]? = some b := ⟨bs[i], List.getElem?_eq_getElem hi⟩
    obtain ⟨effects, he⟩ := ih (i + 1) bs (by omega)
    refine ⟨(checkSafety b).2 ++ effects, ?_⟩
    simp only [checkLoop, hb, checkSafety_fst, set_same bs i b hb, he]

/-! ## Lemmas on frame handling -/

theorem handleLoop_no_match (batteryID : Int) (SoC : ℚ) :
    ∀ (n i : Nat) (bs : Registry), i + n ≤ bs.length →
      (∀ j b, i ≤ j → j < i + n → bs[j]? = some b → b.ID ≠ batteryID) →
      handleLoop batteryID SoC n i bs = some (bs, List.range' i n) := by
  intro n
  induction n with
  | zero =>
    intro i bs _ _
    rfl
  | succ n ih =>
    intro i bs h hne
    have hi : i < bs.length := by omega
    obtain ⟨b, hb⟩ : ∃ b, bs[i]? = some b := ⟨bs[i], List.getElem?_eq_getElem hi⟩
    have hbne : b.ID ≠ batteryID := hne i b (le_refl i) (by omega) hb
    have hrec := ih (i + 1) bs (by omega)
      (fun j c h1 h2 h3 => hne j c (by omega) (by omega) h3)
    simp only [handleLoop, hb, if_neg hbne, hrec, List.range'_succ]

theorem handleLoop_match (batteryID : Int) (SoC : ℚ) :
    ∀ (n i : Nat) (bs : Registry) (k : Nat) (r : Battery),
      i ≤ k → k < i + n → i + n ≤ bs.length → bs[k]? = some r → r.ID = batteryID →
      (∀ j b, i ≤ j → j < k → bs[j]? = some b → b.ID ≠ batteryID) →
      handleLoop batteryID SoC n i bs =
        some (bs.set k { r with SoC := SoC }, List.range' i (k + 1 - i)) := by
  intro n
  induction n with
  | zero =>
    intro i bs k r h1 h2
    omega
  | succ n ih =>
    intro i bs k r h1 h2 h3 hr hid hne
    have hi : i < bs.length := by omega
    obtain ⟨b, hb⟩ : ∃ b, bs[i]? = some b := ⟨bs[i], List.getElem?_eq_getElem hi⟩
    by_cases hik : i = k
    · subst hik
      have hbr : b = r := by
        rw [hb] at hr
        exact Option.some.inj hr
      subst hbr
      have hone : i + 1 - i = 1 := by omega
      simp only [handleLoop, hb, if_pos hid, hone, List.range'_one]
    · have hbne : b.ID ≠ batteryID := hne i b (le_refl i) (by omega) hb
      have hrec := ih (i + 1) bs k r (by omega) (by omega) (by omega) hr hid
        (fun j c h4 h5 h6 => hne j c (by omega) h5 h6)
      have hlen : k + 1 - i = (k + 1 - (i + 1)) + 1 := by omega
      simp only [handleLoop, hb, if_neg hbne, hrec]
      rw [hlen, List.range'_succ]

theorem handleLoop_total (batteryID : Int) (SoC : ℚ) :
    ∀ (n i : Nat) (bs : Registry), i + n ≤ bs.length →
      ∃ bs1 accessed, handleLoop batteryID SoC n i bs = some (bs1, accessed) ∧
        (∀ t ∈ accessed, i ≤ t ∧ t < i + n) ∧
        (bs1 = bs ∨ ∃ k r, i ≤ k ∧ k < i + n ∧ bs[k]? = some r ∧ r.ID = batteryID ∧
          bs1 = bs.set k { r with SoC := SoC }) := by
  intro n
  induction n with
  | zero =>
    intro i bs _
    exact ⟨bs, [], rfl, by simp, Or.inl rfl⟩
  | succ n ih =>
    intro i bs h
    have hi : i < bs.length := by omega
    obtain ⟨b, hb⟩ : ∃ b, bs[i]? = some b := ⟨bs[i], List.getElem?_eq_getElem hi⟩
    by_cases hid : b.ID = batteryID
    · refine ⟨bs.set i { b with SoC := SoC }, [i], ?_, ?_, ?_⟩
      · simp only [handleLoop, hb, if_pos hid]
      · intro t ht
        have : t = i := by simpa using ht
        omega
      · exact Or.inr ⟨i, b, le_refl i, by omega, hb, hid, rfl⟩
    · obtain ⟨bs1, accessed, h1, h2, h3⟩ := ih (i + 1) bs (by omega)
      refine ⟨bs1, i :: accessed, ?_, ?_, ?_⟩
      · simp only [handleLoop, hb, if_neg hid, h1]
      · intro t ht
        rcases List.mem_cons.mp ht with ht | ht
        · omega
        · have := h2 t ht
          omega
      · rcases h3 with h3 | ⟨k, r, h4, h5, h6, h7, h8⟩
        · exact Or.inl h3
        · exact Or.inr ⟨k, r, by omega, by omega, h6, h7, h8⟩

/-! ## Lemmas on the registry identity -/

theorem IdInvariant_get (bs : Registry) (h : IdInvariant bs) (i : Nat)
    (hi : i < NUM_BATTERIES) : ∃ b, bs[i]? = some b ∧ b.ID = (i : Int) := by
  have h1 := h.2 i hi
  cases hb : bs[i]? with
  | none => simp [hb] at h1
  | some b =>
    refine ⟨b, rfl, ?_⟩
    simpa [hb] using h1

theorem IdInvariant_ID (bs : Registry) (h : IdInvariant bs) (j : Nat) (b : Battery)
    (hb : bs[j]? = some b) : b.ID = (j : Int) := by
  have hj : j < NUM_BATTERIES := by
    rcases List.getElem?_eq_some.mp hb with ⟨hlt, _⟩
    rw [h.1] at hlt
    exact hlt
  have h1 := h.2 j hj
  simpa [hb] using h1

theorem IdInvariant_set (bs : Registry) (h : IdInvariant bs) (k : Nat) (r c : Battery)
    (hr : bs[k]? = some r) (hc : c.ID = r.ID) : IdInvariant (bs.set k c) := by
  refine ⟨by simpa using h.1, ?_⟩
  intro i hi
  rw [List.getElem?_set]
  by_cases hki : k = i
  · subst hki
    have hlt : k < bs.length := by rw [h.1]; exact hi
    simp [hlt, hc, IdInvariant_ID bs h k r hr]
  · simp [hki, h.2 i hi]

theorem initializeBatteries_spec (polls : Nat → Poll) :
    ∃ bs, initializeBatteries polls batteries0 = some bs ∧ bs.length = NUM_BATTERIES ∧
      ∀ i, i < NUM_BATTERIES →
        bs[i]? = some (updateBatteryMetrics (polls i)
          { zeroBattery with ID := (i : Int), type := "Li-ion" }) := by
  obtain ⟨bs, h1, h2, h3⟩ := initializeLoop_spec polls NUM_BATTERIES 0 batteries0
    (by simp [batteries0])
  refine ⟨bs, h1, by simpa [batteries0] using h2, ?_⟩
  intro i hi
  rw [h3 i, if_pos ⟨Nat.zero_le i, by omega⟩]
  simp [batteries0, List.getElem?_replicate, hi]

theorem initializeBatteries_IdInvariant (polls : Nat → Poll) :
    ∃ bs, initializeBatteries polls batteries0 = some bs ∧ IdInvariant bs := by
  obtain ⟨bs, h1, h2, h3⟩ := initializeBatteries_spec polls
  refine ⟨bs, h1, h2, ?_⟩
  intro i hi
  rw [h3 i hi]
  simp [updateBatteryMetrics_ID]

theorem handleCANMessage_outside (frame : Frame) (bs : Registry) (h : IdInvariant bs)
    (hout : ¬ (0x100 ≤ frame.canId ∧ frame.canId < 0x100 + (NUM_BATTERIES : Int))) :
    ∃ accessed, handleCANMessage frame bs = some (bs, accessed) ∧
      ∀ t ∈ accessed, t < NUM_BATTERIES := by
  unfold handleCANMessage
  by_cases hr : frame.canId ≥ 0x100 ∧ frame.canId ≤ 0x13F
  · rw [if_pos hr]
    refine ⟨List.range' 0 NUM_BATTERIES, ?_, ?_⟩
    · apply handleLoop_no_match
      · rw [h.1]; omega
      · intro j b _ hj hb
        have hid := IdInvariant_ID bs h j b hb
        have hN : (NUM_BATTERIES : Int) = 40 := rfl
        have hj2 : j < 40 := by simpa [NUM_BATTERIES] using hj
        rw [hN] at hout
        omega
    · intro t ht
      have := List.mem_range'_1.mp ht
      omega
  · rw [if_neg hr]
    exact ⟨[], rfl, by simp⟩

theorem handleCANMessage_inside (frame : Frame) (bs : Registry) (h : IdInvariant bs)
    (hin : 0x100 ≤ frame.canId ∧ frame.canId < 0x100 + (NUM_BATTERIES : Int)) :
    ∃ r, bs[(frame.canId - 0x100).toNat]? = some r ∧ r.ID = frame.canId - 0x100 ∧
      (frame.canId - 0x100).toNat < NUM_BATTERIES ∧
      handleCANMessage frame bs =
        some (bs.set (frame.canId - 0x100).toNat { r with SoC := floatQuotient frame.byte0 },
          List.range' 0 ((frame.canId - 0x100).toNat + 1)) := by
  have hN : (NUM_BATTERIES : Int) = 40 := rfl
  rw [hN] at hin
  have hk : (frame.canId - 0x100).toNat < NUM_BATTERIES := by
    simp only [NUM_BATTERIES]
    omega
  have hkk : ((frame.canId - 0x100).toNat : Int) = frame.canId - 0x100 := by omega
  obtain ⟨r, hr, hid⟩ := IdInvariant_get bs h _ hk
  rw [hkk] at hid
  refine ⟨r, hr, hid, hk, ?_⟩
  unfold handleCANMessage
  have hrange : frame.canId ≥ 0x100 ∧ frame.canId ≤ 0x13F := by omega
  rw [if_pos hrange]
  have := handleLoop_match (frame.canId - 0x100) (floatQuotient frame.byte0) NUM_BATTERIES 0 bs
    (frame.canId - 0x100).toNat r (Nat.zero_le _) (by omega) (by rw [h.1]; omega) hr hid
    (by
      intro j b _ hj hb
      have hjid := IdInvariant_ID bs h j b hb
      omega)
  simpa using this

theorem handleCANMessage_total (frame : Frame) (bs : Registry)
    (hlen : bs.length = NUM_BATTERIES) :
    ∃ bs1 accessed, handleCANMessage frame bs = some (bs1, accessed) ∧
      (∀ t ∈ accessed, t < NUM_BATTERIES) ∧
      (bs1 = bs ∨ ∃ k r, k < NUM_BATTERIES ∧ bs[k]? = some r ∧
        bs1 = bs.set k { r with SoC := floatQuotient frame.byte0 }) := by
  unfold handleCANMessage
  by_cases hr : frame.canId ≥ 0x100 ∧ frame.canId ≤ 0x13F
  · rw [if_pos hr]
    obtain ⟨bs1, accessed, h1, h2, h3⟩ :=
      handleLoop_total (frame.canId - 0x100) (floatQuotient frame.byte0) NUM_BATTERIES 0 bs
        (by rw [hlen]; omega)
    refine ⟨bs1, accessed, h1, ?_, ?_⟩
    · intro t ht
      have := h2 t ht
      omega
    · rcases h3 with h3 | ⟨k, r, _, h5, h6, _, h8⟩
      · exact Or.inl h3
      · exact Or.inr ⟨k, r, by omega, h6, h8⟩
  · rw [if_neg hr]
    exact ⟨bs, [], rfl, by simp, Or.inl rfl⟩

theorem updateAllBatteries_spec (polls : Nat → Poll) (bs : Registry)
    (hlen : bs.length = NUM_BATTERIES) :
    ∃ bs1, updateAllBatteries polls bs = some bs1 ∧ bs1.length = NUM_BATTERIES ∧
      ∀ j, bs1[j]? = (bs[j]?).map (updateBatteryMetrics (polls j)) := by
  obtain ⟨bs1, h1, h2, h3⟩ := updateLoop_spec polls NUM_BATTERIES 0 bs (by rw [hlen]; omega)
  refine ⟨bs1, h1, by rw [h2, hlen], ?_⟩
  intro j
  rw [h3 j]
  by_cases hj : j < NUM_BATTERIES
  · rw [if_pos ⟨Nat.zero_le j, by omega⟩]
  · rw [if_neg (by omega), List.getElem?_eq_none (by rw [hlen]; omega)]
    rfl

theorem updateAllBatteries_IdInvariant (polls : Nat → Poll) (bs : Registry)
    (h : IdInvariant bs) :
    ∃ bs1, updateAllBatteries polls bs = some bs1 ∧ IdInvariant bs1 := by
  obtain ⟨bs1, h1, h2, h3⟩ := updateAllBatteries_spec polls bs h.1
  refine ⟨bs1, h1, h2, ?_⟩
  intro i hi
  obtain ⟨b, hb, hid⟩ := IdInvariant_get bs h i hi
  rw [h3 i, hb]
  simp [updateBatteryMetrics_ID, hid]

theorem handleCANMessage_IdInvariant (frame : Frame) (bs : Registry) (h : IdInvariant bs) :
    ∃ bs1 accessed, handleCANMessage frame bs = some (bs1, accessed) ∧ IdInvariant bs1 := by
  obtain ⟨bs1, accessed, h1, _, h3⟩ := handleCANMessage_total frame bs h.1
  refine ⟨bs1, accessed, h1, ?_⟩
  rcases h3 with h3 | ⟨k, r, _, hr, hset⟩
  · rw [h3]
    exact h
  · rw [hset]
    exact IdInvariant_set bs h k r _ hr rfl

theorem checkAllBatteries_IdInvariant (bs : Registry) (h : IdInvariant bs) :
    ∃ effects, checkAllBatteries bs = some (bs, effects) :=
  checkLoop_registry NUM_BATTERIES 0 bs (by rw [h.1]; omega)

/-! ## Safety check: alerts and isolation -/

/-- C1: one call of `checkSafety` emits the voltage alert for the battery's ID
exactly when the voltage is above `MAX_VOLTAGE` or below `MIN_VOLTAGE`, emits
the temperature alert for the battery's ID exactly when the temperature is
above `MAX_TEMPERATURE`, emits no other alert, and invokes `isolateBattery`
(on this battery only) exactly when at least one alert is emitted.  With
voltage 3.8 and temperature 65.0 the calls are one isolation and the
temperature alert; with voltage 4.5 and a temperature not above the maximum
they are one isolation and the voltage alert. -/
theorem checkSafety_alerts_and_isolation (b : Battery) :
    MAX_VOLTAGE = 4.2 ∧ MIN_VOLTAGE = 3.0 ∧ MAX_TEMPERATURE = 60.0 ∧
    (Effect.alert (voltageAlert b.ID) ∈ (checkSafety b).2 ↔
      (b.voltage > MAX_VOLTAGE ∨ b.voltage < MIN_VOLTAGE)) ∧
    (Effect.alert (temperatureAlert b.ID) ∈ (checkSafety b).2 ↔
      b.temperature > MAX_TEMPERATURE) ∧
    (∀ m, Effect.alert m ∈ (checkSafety b).2 →
      m = voltageAlert b.ID ∨ m = temperatureAlert b.ID) ∧
    (Effect.isolate b.ID ∈ (checkSafety b).2 ↔ ∃ m, Effect.alert m ∈ (checkSafety b).2) ∧
    (∀ i, Effect.isolate i ∈ (checkSafety b).2 → i = b.ID) ∧
    (b.voltage = 3.8 → b.temperature = 65.0 →
      (checkSafety b).2 = [Effect.isolate b.ID, Effect.alert (temperatureAlert b.ID)]) ∧
    (b.voltage = 4.5 → b.temperature ≤ MAX_TEMPERATURE →
      (checkSafety b).2 = [Effect.isolate b.ID, Effect.alert (voltageAlert b.ID)]) := by
  have hne := voltageAlert_ne_temperatureAlert b.ID b.ID
  refine ⟨rfl, rfl, rfl, ?_, ?_, ?_, ?_, ?_, ?_, ?_⟩
  · rw [checkSafety_snd]
    by_cases h1 : b.voltage > MAX_VOLTAGE ∨ b.voltage < MIN_VOLTAGE <;>
      by_cases h2 : b.temperature > MAX_TEMPERATURE <;>
      simp [if_pos, if_neg, h1, h2, hne]
  · rw [checkSafety_snd]
    by_cases h1 : b.voltage > MAX_VOLTAGE ∨ b.voltage < MIN_VOLTAGE <;>
      by_cases h2 : b.temperature > MAX_TEMPERATURE <;>
      simp [if_pos, if_neg, h1, h2, hne.symm]
  · intro m
    rw [checkSafety_snd]
    split_ifs <;> simp <;> tauto
  · rw [checkSafety_snd]
    split_ifs <;> simp
  · intro i
    rw [checkSafety_snd]
    split_ifs <;> simp
  · intro hv ht
    rw [checkSafety_snd, hv, ht]
    norm_num [MAX_VOLTAGE, MIN_VOLTAGE, MAX_TEMPERATURE]
  · intro hv ht
    rw [checkSafety_snd, hv, if_neg (not_lt.mpr ht)]
    norm_num [MAX_VOLTAGE, MIN_VOLTAGE]

/-- C1 at the records of Scenario A and Scenario B. -/
theorem checkSafety_alerts_and_isolation_witness :
    (checkSafety scenarioA).2 = [Effect.isolate 0, Effect.alert (voltageAlert 0)] ∧
    (checkSafety scenarioB).2 = [Effect.isolate 5, Effect.alert (temperatureAlert 5)] :=
  ⟨(checkSafety_alerts_and_isolation scenarioA).2.2.2.2.2.2.2.2.2 rfl
      (by norm_num [scenarioA, MAX_TEMPERATURE]),
    (checkSafety_alerts_and_isolation scenarioB).2.2.2.2.2.2.2.2.1 rfl rfl⟩

/-- C2, as stated, fails on the record `bothOut`: voltage and temperature are
both out of range and `isolateBattery` is invoked twice, not once. -/
theorem checkSafety_both_out_not_once :
    (bothOut.voltage > MAX_VOLTAGE ∨ bothOut.voltage < MIN_VOLTAGE) ∧
    bothOut.temperature > MAX_TEMPERATURE ∧
    ((checkSafety bothOut).2.filter (fun e => decide (e = Effect.isolate bothOut.ID))).length
      ≠ 1 := by
  rw [checkSafety_snd]
  norm_num [bothOut, MAX_VOLTAGE, MIN_VOLTAGE, MAX_TEMPERATURE]

/-- C2, amended: when the voltage is out of range and the temperature is above
the maximum, one call of `checkSafety` makes exactly the calls isolate, voltage
alert, isolate, temperature alert, in this order: both alerts are emitted and
`isolateBattery` is invoked twice. -/
theorem checkSafety_both_out (b : Battery)
    (hv : b.voltage > MAX_VOLTAGE ∨ b.voltage < MIN_VOLTAGE)
    (ht : b.temperature > MAX_TEMPERATURE) :
    (checkSafety b).2 =
      [Effect.isolate b.ID, Effect.alert (voltageAlert b.ID),
        Effect.isolate b.ID, Effect.alert (temperatureAlert b.ID)] ∧
    ((checkSafety b).2.filter (fun e => decide (e = Effect.isolate b.ID))).length = 2 := by
  rw [checkSafety_snd, if_pos hv, if_pos ht]
  simp

/-- C2 amended, at the record `bothOut`. -/
theorem checkSafety_both_out_witness :
    (checkSafety bothOut).2 =
      [Effect.isolate 1, Effect.alert (voltageAlert 1),
        Effect.isolate 1, Effect.alert (temperatureAlert 1)] ∧
    ((checkSafety bothOut).2.filter (fun e => decide (e = Effect.isolate 1))).length = 2 :=
  checkSafety_both_out bothOut
    (Or.inl (by norm_num [bothOut, MAX_VOLTAGE]))
    (by norm_num [bothOut, MAX_TEMPERATURE])

/-! ## Frame handling on the initialised registry -/

/-- C3: on the registry set up by `initializeBatteries`, a frame whose
arbitration ID lies outside `[0x100, 0x100 + NUM_BATTERIES)` leaves every
record as it was, whatever its payload byte, and `handleCANMessage` accesses
the array only at indices below `NUM_BATTERIES`. -/
theorem handleCANMessage_unrecognized_id (polls : Nat → Poll) (frame : Frame)
    (hout : ¬ (0x100 ≤ frame.canId ∧ frame.canId < 0x100 + (NUM_BATTERIES : Int))) :
    ∃ bs, initializeBatteries polls batteries0 = some bs ∧
      ∃ accessed, handleCANMessage frame bs = some (bs, accessed) ∧
        ∀ t ∈ accessed, t < NUM_BATTERIES := by
  obtain ⟨bs, h1, h2⟩ := initializeBatteries_IdInvariant polls
  exact ⟨bs, h1, handleCANMessage_outside frame bs h2 hout⟩

/-- C3 at the frame of Scenario C, identifier `BASE + N + 3`. -/
theorem handleCANMessage_unrecognized_id_witness :
    ∃ bs, initializeBatteries noFramePolls batteries0 = some bs ∧
      ∃ accessed, handleCANMessage frameScenarioC bs = some (bs, accessed) ∧
        ∀ t ∈ accessed, t < NUM_BATTERIES :=
  handleCANMessage_unrecognized_id noFramePolls frameScenarioC
    (by simp [frameScenarioC, NUM_BATTERIES])

/-- C4, as stated, fails: on the initialised registry a frame addressed to
battery 7 with payload byte 1 leaves the SoC of battery 7 at the `float`
13421773 / 134217728, which is not 1 / 10. -/
theorem handleCANMessage_SoC_not_tenth :
    ∃ (bs bs1 : Registry) (accessed : List Nat) (c : Battery),
      initializeBatteries noFramePolls batteries0 = some bs ∧
      frameTo7Low.canId - 0x100 = 7 ∧ frameTo7Low.byte0.val = 1 ∧
      handleCANMessage frameTo7Low bs = some (bs1, accessed) ∧
      bs1[7]? = some c ∧ c.ID = 7 ∧
      c.SoC = 13421773 / 134217728 ∧ c.SoC ≠ 1 / 10 := by
  obtain ⟨bs, h1, h2⟩ := initializeBatteries_IdInvariant noFramePolls
  obtain ⟨r, h3, h4, h5, h6⟩ :=
    handleCANMessage_inside frameTo7Low bs h2 (by simp [frameTo7Low, NUM_BATTERIES])
  have hk : (frameTo7Low.canId - 0x100).toNat = 7 := by simp [frameTo7Low]
  rw [hk] at h3 h6
  have hlt : 7 < bs.length := by rw [h2.1]; simp [NUM_BATTERIES]
  have hq : floatQuotient frameTo7Low.byte0 = 13421773 / 134217728 := floatQuotient_1
  refine ⟨bs, _, _, _, h1, by simp [frameTo7Low], rfl, h6, List.getElem?_set_self hlt, ?_, ?_, ?_⟩
  · simpa [frameTo7Low] using h4
  · exact hq
  · show floatQuotient frameTo7Low.byte0 ≠ 1 / 10
    rw [hq]
    norm_num

/-- C4, amended: on the registry set up by `initializeBatteries`, a frame whose
arbitration ID `a` lies in `[0x100, 0x100 + NUM_BATTERIES)` with payload byte
`b` sets the SoC of the record at index `a - 0x100`, the only record whose ID
is `a - 0x100`, to the `float` that `(float)b / 10.0` yields; the other fields
of that record and all other records are unchanged.  The stored value lies
within a relative distance `2 ^ (-24)` of `b / 10` and equals `b / 10` exactly
when `b` is a multiple of 5. -/
theorem handleCANMessage_sets_SoC (polls : Nat → Poll) (frame : Frame)
    (hin : 0x100 ≤ frame.canId ∧ frame.canId < 0x100 + (NUM_BATTERIES : Int)) :
    ∃ (bs bs1 : Registry) (accessed : List Nat) (r : Battery),
      initializeBatteries polls batteries0 = some bs ∧
      handleCANMessage frame bs = some (bs1, accessed) ∧
      bs[(frame.canId - 0x100).toNat]? = some r ∧ r.ID = frame.canId - 0x100 ∧
      (∀ (j : Nat) (c : Battery), bs[j]? = some c → c.ID = frame.canId - 0x100 →
        j = (frame.canId - 0x100).toNat) ∧
      bs1[(frame.canId - 0x100).toNat]? =
        some { ID := r.ID, type := r.type, voltage := r.voltage, current := r.current,
               temperature := r.temperature, SoC := floatQuotient frame.byte0,
               cycleCount := r.cycleCount, capacity := r.capacity } ∧
      (∀ j, j ≠ (frame.canId - 0x100).toNat → bs1[j]? = bs[j]?) ∧
      bs1.length = bs.length ∧
      (frame.byte0.val : ℚ) / 10 * (1 - 1 / 2 ^ 24) ≤ floatQuotient frame.byte0 ∧
      floatQuotient frame.byte0 ≤ (frame.byte0.val : ℚ) / 10 * (1 + 1 / 2 ^ 24) ∧
      (floatQuotient frame.byte0 = (frame.byte0.val : ℚ) / 10 ↔ frame.byte0.val % 5 = 0) := by
  obtain ⟨bs, h1, h2⟩ := initializeBatteries_IdInvariant polls
  obtain ⟨r, h3, h4, h5, h6⟩ := handleCANMessage_inside frame bs h2 hin
  have hlt : (frame.canId - 0x100).toNat < bs.length := by rw [h2.1]; exact h5
  refine ⟨bs, _, _, r, h1, h6, h3, h4, ?_, ?_, ?_, ?_, (floatQuotient_near frame.byte0).1,
    (floatQuotient_near frame.byte0).2, floatQuotient_exact_iff frame.byte0⟩
  · intro j c hj hc
    have := IdInvariant_ID bs h2 j c hj
    omega
  · rw [List.getElem?_set_self hlt]
  · intro j hj
    rw [List.getElem?_set_ne (Ne.symm hj)]
  · simp

/-- C4 amended, at a frame addressed to battery 3 with payload byte 37: the
SoC of battery 3 becomes the `float` 15518925 / 4194304. -/
theorem handleCANMessage_sets_SoC_witness :
    ∃ (bs bs1 : Registry) (accessed : List Nat) (r : Battery),
      initializeBatteries noFramePolls batteries0 = some bs ∧
      handleCANMessage frameTo3 bs = some (bs1, accessed) ∧
      bs[3]? = some r ∧ r.ID = 3 ∧
      (bs1[3]?).map Battery.SoC = some (15518925 / 4194304) := by
  obtain ⟨bs, bs1, accessed, r, h1, h2, h3, h4, _, h6, _, _⟩ :=
    handleCANMessage_sets_SoC noFramePolls frameTo3 (by simp [frameTo3, NUM_BATTERIES])
  have hk : (frameTo3.canId - 0x100).toNat = 3 := by simp [frameTo3]
  have hq : floatQuotient frameTo3.byte0 = 15518925 / 4194304 := floatQuotient_37
  rw [hk] at h3 h6
  refine ⟨bs, bs1, accessed, r, h1, h2, h3, by simpa [frameTo3] using h4, ?_⟩
  rw [h6, hq]
  rfl

/-- C10, as stated, fails: on the initialised registry a frame addressed to
battery 2 with payload byte 39 writes the `float` 8178893 / 2097152 into the
SoC of battery 2, which is not 39 / 10. -/
theorem handleCANMessage_writes_not_tenth :
    ∃ (bs bs1 : Registry) (accessed : List Nat) (c : Battery),
      initializeBatteries noFramePolls batteries0 = some bs ∧
      frameTo2.byte0.val = 39 ∧
      handleCANMessage frameTo2 bs = some (bs1, accessed) ∧
      bs1[2]? = some c ∧ bs[2]? ≠ some c ∧
      c.SoC = 8178893 / 2097152 ∧ c.SoC ≠ 39 / 10 := by
  obtain ⟨bs, h1, h2, h3⟩ := initializeBatteries_spec noFramePolls
  have hinv : IdInvariant bs := by
    obtain ⟨bs2, h4, h5⟩ := initializeBatteries_IdInvariant noFramePolls
    rw [h1] at h4
    rw [Option.some.inj h4]
    exact h5
  obtain ⟨r, h6, _, _, h9⟩ :=
    handleCANMessage_inside frameTo2 bs hinv (by simp [frameTo2, NUM_BATTERIES])
  have hk : (frameTo2.canId - 0x100).toNat = 2 := by simp [frameTo2]
  rw [hk] at h6 h9
  have hlt : 2 < bs.length := by rw [h2]; simp [NUM_BATTERIES]
  have hq : floatQuotient frameTo2.byte0 = 8178893 / 2097152 := floatQuotient_39
  have hr : r.SoC = 50 := by
    have e2 := h3 2 (by simp [NUM_BATTERIES])
    rw [h6] at e2
    rw [Option.some.inj e2, updateBatteryMetrics_SoC]
    rfl
  refine ⟨bs, _, _, _, h1, rfl, h9, List.getElem?_set_self hlt, ?_, hq, ?_⟩
  · rw [h6]
    intro h
    have h10 := congrArg Battery.SoC (Option.some.inj h)
    simp only [hr, hq] at h10
    norm_num at h10
  · show floatQuotient frameTo2.byte0 ≠ 39 / 10
    rw [hq]
    norm_num

/-- C10, amended: on an array of `NUM_BATTERIES` records `handleCANMessage`
returns, and with `b` the payload byte it either leaves the array as it was or
replaces the SoC of one record by the `float` that `(float)b / 10.0` yields;
this value lies in `[0, 25.5]` and within a relative distance `2 ^ (-24)` of
`b / 10`, so every record that differs from its old value has
`0 ≤ SoC ≤ 25.5 ≤ 100`. -/
theorem handleCANMessage_SoC_bounds (frame : Frame) (bs : Registry)
    (hlen : bs.length = NUM_BATTERIES) :
    ∃ (bs1 : Registry) (accessed : List Nat),
      handleCANMessage frame bs = some (bs1, accessed) ∧
      (bs1 = bs ∨ ∃ k r, k < NUM_BATTERIES ∧ bs[k]? = some r ∧
        bs1 = bs.set k { r with SoC := floatQuotient frame.byte0 }) ∧
      (0 ≤ floatQuotient frame.byte0 ∧ floatQuotient frame.byte0 ≤ 25.5) ∧
      ((frame.byte0.val : ℚ) / 10 * (1 - 1 / 2 ^ 24) ≤ floatQuotient frame.byte0 ∧
        floatQuotient frame.byte0 ≤ (frame.byte0.val : ℚ) / 10 * (1 + 1 / 2 ^ 24)) ∧
      ∀ (j : Nat) (c : Battery), bs1[j]? = some c → bs[j]? ≠ some c →
        c.SoC = floatQuotient frame.byte0 ∧ 0 ≤ c.SoC ∧ c.SoC ≤ 25.5 ∧ c.SoC ≤ 100 := by
  obtain ⟨bs1, accessed, h1, _, h3⟩ := handleCANMessage_total frame bs hlen
  obtain ⟨hb0, hb1, hb2⟩ := floatQuotient_bounds frame.byte0
  refine ⟨bs1, accessed, h1, h3, ⟨hb0, hb1⟩, floatQuotient_near frame.byte0, ?_⟩
  intro j c hj hne
  rcases h3 with h3 | ⟨k, r, hk, hr, hset⟩
  · rw [h3] at hj
    exact absurd hj hne
  · rw [hset, List.getElem?_set] at hj
    by_cases hkj : k = j
    · subst hkj
      have hlt : k < bs.length := by rw [hlen]; exact hk
      rw [if_pos rfl, if_pos hlt] at hj
      have hc := Option.some.inj hj
      subst hc
      exact ⟨rfl, hb0, hb1, hb2⟩
    · rw [if_neg hkj] at hj
      exact absurd hj hne

/-- C10 amended, at the zero-initialised array and a frame with identifier
0x100 and payload byte 37: every record the call changes has the SoC
15518925 / 4194304, between 0 and 25.5. -/
theorem handleCANMessage_SoC_bounds_witness :
    ∃ (bs1 : Registry) (accessed : List Nat),
      handleCANMessage frameTo0 batteries0 = some (bs1, accessed) ∧
      ∀ (j : Nat) (c : Battery), bs1[j]? = some c → batteries0[j]? ≠ some c →
        c.SoC = 15518925 / 4194304 ∧ 0 ≤ c.SoC ∧ c.SoC ≤ 25.5 ∧ c.SoC ≤ 100 := by
  obtain ⟨bs1, accessed, h1, _, _, _, h4⟩ :=
    handleCANMessage_SoC_bounds frameTo0 batteries0 (by simp [batteries0])
  have hq : floatQuotient frameTo0.byte0 = 15518925 / 4194304 := floatQuotient_37
  refine ⟨bs1, accessed, h1, ?_⟩
  intro j c hj hne
  have h5 := h4 j c hj hne
  rw [hq] at h5
  exact h5

/-! ## Metric update: what is stored -/

/-- C6, as stated, fails: with no frame ever available, battery 0 of the
freshly initialised registry has a temperature not above the maximum, and
`checkSafety` emits the voltage alert and invokes `isolateBattery`. -/
theorem never_measured_voltage_alerts :
    ∃ bs b, initializeBatteries noFramePolls batteries0 = some bs ∧ bs[0]? = some b ∧
      ¬ (b.temperature > MAX_TEMPERATURE) ∧
      Effect.alert (voltageAlert b.ID) ∈ (checkSafety b).2 ∧
      Effect.isolate b.ID ∈ (checkSafety b).2 := by
  obtain ⟨bs, h1, _, h3⟩ := initializeBatteries_spec noFramePolls
  refine ⟨bs, _, h1, h3 0 (by simp [NUM_BATTERIES]), ?_, ?_, ?_⟩
  · rw [updateBatteryMetrics_temperature]
    norm_num [noFramePolls, roomSensors, MAX_TEMPERATURE]
  · rw [checkSafety_snd, updateBatteryMetrics_temperature]
    norm_num [noFramePolls, updateBatteryMetrics_voltage_none, zeroBattery, roomSensors,
      MAX_VOLTAGE, MIN_VOLTAGE, MAX_TEMPERATURE]
  · rw [checkSafety_snd, updateBatteryMetrics_temperature]
    norm_num [noFramePolls, updateBatteryMetrics_voltage_none, zeroBattery, roomSensors,
      MAX_VOLTAGE, MIN_VOLTAGE, MAX_TEMPERATURE]

/-- C6, amended: a battery of the freshly initialised registry for which no
frame was available holds the voltage 0 of the zero-initialised array; this
value enters the comparison, so `checkSafety` emits the voltage alert and
invokes `isolateBattery`, whatever the temperature. -/
theorem never_measured_voltage_is_zero (polls : Nat → Poll) (i : Nat)
    (hi : i < NUM_BATTERIES) (hcan : (polls i).can = none) :
    ∃ bs b, initializeBatteries polls batteries0 = some bs ∧ bs[i]? = some b ∧
      b.ID = (i : Int) ∧ b.voltage = 0 ∧
      Effect.alert (voltageAlert b.ID) ∈ (checkSafety b).2 ∧
      Effect.isolate b.ID ∈ (checkSafety b).2 := by
  obtain ⟨bs, h1, _, h3⟩ := initializeBatteries_spec polls
  have hv : (updateBatteryMetrics (polls i)
      { zeroBattery with ID := (i : Int), type := "Li-ion" }).voltage = 0 := by
    have hp : polls i = { can := none, sensors := (polls i).sensors } := by
      cases hpi : polls i with
      | mk can sensors =>
        rw [hpi] at hcan
        simp only at hcan
        rw [hcan]
    rw [hp, updateBatteryMetrics_voltage_none]
    rfl
  have hlow : (0 : ℚ) > MAX_VOLTAGE ∨ (0 : ℚ) < MIN_VOLTAGE :=
    Or.inr (by norm_num [MIN_VOLTAGE])
  refine ⟨bs, _, h1, h3 i hi, ?_, hv, ?_, ?_⟩
  · rw [updateBatteryMetrics_ID]
  · rw [checkSafety_snd, hv, if_pos hlow]
    simp
  · rw [checkSafety_snd, hv, if_pos hlow]
    simp

/-- C6 amended, at battery 5 when no frame is ever available. -/
theorem never_measured_voltage_is_zero_witness :
    ∃ bs b, initializeBatteries noFramePolls batteries0 = some bs ∧ bs[5]? = some b ∧
      b.ID = 5 ∧ b.voltage = 0 ∧
      Effect.alert (voltageAlert b.ID) ∈ (checkSafety b).2 ∧
      Effect.isolate b.ID ∈ (checkSafety b).2 :=
  never_measured_voltage_is_zero noFramePolls 5 (by simp [NUM_BATTERIES]) rfl

/-! ## Updates after isolation -/

/-- C7, as stated, fails: `checkSafety` isolates the record `scenarioD`
(2.5 V, 1.5 A); a later `updateBatteryMetrics` with a frame of payload byte 39
available changes its voltage to the `float` 8178893 / 2097152 (3.9 V) and its
current to the sensor reading 0. -/
theorem isolated_battery_not_frozen :
    Effect.isolate scenarioD.ID ∈ (checkSafety scenarioD).2 ∧
    (checkSafety scenarioD).1.voltage = 2.5 ∧
    (updateBatteryMetrics { can := some frameTo2, sensors := roomSensors }
      (checkSafety scenarioD).1).voltage = 8178893 / 2097152 ∧
    (updateBatteryMetrics { can := some frameTo2, sensors := roomSensors }
      (checkSafety scenarioD).1).voltage ≠ (checkSafety scenarioD).1.voltage ∧
    (updateBatteryMetrics { can := some frameTo2, sensors := roomSensors }
      (checkSafety scenarioD).1).current ≠ (checkSafety scenarioD).1.current := by
  have hq : floatQuotient frameTo2.byte0 = 8178893 / 2097152 := floatQuotient_39
  rw [checkSafety_snd, checkSafety_fst, updateBatteryMetrics_voltage_some,
    updateBatteryMetrics_current, hq]
  norm_num [scenarioD, roomSensors, MAX_VOLTAGE, MIN_VOLTAGE, MAX_TEMPERATURE]

/-- C7, amended: `checkSafety` and `isolateBattery` leave the record as it is
and record no isolation in it.  A later `updateBatteryMetrics` on any battery,
isolated by `checkSafety` or not, sets the voltage to the `float` that
`(float)b / 10.0` yields when a frame with payload byte `b` is available (a
value within a relative distance `2 ^ (-24)` of `b / 10`) and keeps it when
none is, and sets current and temperature to the sensor readings; the ID is
unchanged. -/
theorem update_after_isolation (b : Battery) (poll : Poll) :
    (checkSafety b).1 = b ∧
    (isolateBattery b).1 = b ∧
    (updateBatteryMetrics poll (checkSafety b).1).voltage =
      (match poll.can with
        | some frame => floatQuotient frame.byte0
        | none => b.voltage) ∧
    (∀ byte : Fin 256,
      (byte.val : ℚ) / 10 * (1 - 1 / 2 ^ 24) ≤ floatQuotient byte ∧
      floatQuotient byte ≤ (byte.val : ℚ) / 10 * (1 + 1 / 2 ^ 24)) ∧
    (updateBatteryMetrics poll (checkSafety b).1).current = poll.sensors.readCurrent b.ID ∧
    (updateBatteryMetrics poll (checkSafety b).1).temperature =
      poll.sensors.readTemperature b.ID ∧
    (updateBatteryMetrics poll (checkSafety b).1).ID = b.ID := by
  rw [checkSafety_fst]
  refine ⟨rfl, rfl, ?_, floatQuotient_near, updateBatteryMetrics_current poll b,
    updateBatteryMetrics_temperature poll b, updateBatteryMetrics_ID poll b⟩
  cases poll with
  | mk can sensors =>
    cases can with
    | none => exact updateBatteryMetrics_voltage_none sensors b
    | some frame => exact updateBatteryMetrics_voltage_some sensors frame b

/-- C7 amended, at the isolated record of Scenario D and a frame of payload
byte 39. -/
theorem update_after_isolation_witness :
    Effect.isolate scenarioD.ID ∈ (checkSafety scenarioD).2 ∧
    (updateBatteryMetrics { can := some frameTo2, sensors := roomSensors }
      (checkSafety scenarioD).1).voltage = 8178893 / 2097152 := by
  have hiso : Effect.isolate scenarioD.ID ∈ (checkSafety scenarioD).2 := by
    rw [checkSafety_snd]
    norm_num [scenarioD, MAX_VOLTAGE, MIN_VOLTAGE, MAX_TEMPERATURE]
  refine ⟨hiso, ?_⟩
  rw [(update_after_isolation scenarioD
    { can := some frameTo2, sensors := roomSensors }).2.2.1]
  exact floatQuotient_39

/-! ## Voltage frames and their addressee -/

/-- C8, the code at the failing input: on the freshly initialised registry,
with the frame `frameTo3` (addressed to battery 3, payload byte 37) available
to the first call of `updateBatteryMetrics` of the cycle, the voltage of
battery 0 changes from 0 to the `float` 15518925 / 4194304 (3.7 V) and the
voltage of battery 3 stays 0. -/
theorem voltage_frame_ignores_address :
    frameTo3.canId - 0x100 = 3 ∧ frameTo3.byte0.val = 37 ∧
    ∃ (bs bs1 : Registry) (b0 c0 c3 : Battery),
      initializeBatteries noFramePolls batteries0 = some bs ∧
      updateAllBatteries frameTo3Polls bs = some bs1 ∧
      bs[0]? = some b0 ∧ b0.ID = 0 ∧ b0.voltage = 0 ∧
      bs1[0]? = some c0 ∧ c0.ID = 0 ∧ c0.voltage = 15518925 / 4194304 ∧
      bs1[3]? = some c3 ∧ c3.ID = 3 ∧ c3.voltage = 0 := by
  refine ⟨by simp [frameTo3], rfl, ?_⟩
  obtain ⟨bs, h1, h2, h3⟩ := initializeBatteries_spec noFramePolls
  obtain ⟨bs1, h4, _, h6⟩ := updateAllBatteries_spec frameTo3Polls bs h2
  have e0 := h3 0 (by simp [NUM_BATTERIES])
  have e3 := h3 3 (by simp [NUM_BATTERIES])
  have f0 := h6 0
  have f3 := h6 3
  rw [e0, Option.map_some'] at f0
  rw [e3, Option.map_some'] at f3
  have hp0 : frameTo3Polls 0 = { can := some frameTo3, sensors := roomSensors } := rfl
  have hp3 : frameTo3Polls 3 = { can := none, sensors := roomSensors } := rfl
  refine ⟨bs, bs1, _, _, _, h1, h4, e0, ?_, ?_, f0, ?_, ?_, f3, ?_, ?_⟩
  · rw [updateBatteryMetrics_ID]
    rfl
  · exact updateBatteryMetrics_voltage_none roomSensors _
  · rw [updateBatteryMetrics_ID, updateBatteryMetrics_ID]
    rfl
  · rw [hp0, updateBatteryMetrics_voltage_some]
    exact floatQuotient_37
  · rw [updateBatteryMetrics_ID, updateBatteryMetrics_ID]
    rfl
  · rw [hp3, updateBatteryMetrics_voltage_none]
    exact updateBatteryMetrics_voltage_none roomSensors _

/-! ## Registry identity invariant -/

/-- C9: after `initializeBatteries` the record at every index `i` below
`NUM_BATTERIES` has `ID == i`; under this predicate every ID lies in
`[0, NUM_BATTERIES)` and no two records share an ID; `updateBatteryMetrics`
and `checkSafety` never change a record's ID, and the predicate is preserved
by the update loop, by `handleCANMessage` for every frame and by the safety
loop of the control cycle. -/
theorem registry_identity_invariant :
    (∀ polls : Nat → Poll,
      ∃ bs, initializeBatteries polls batteries0 = some bs ∧ IdInvariant bs) ∧
    (∀ bs : Registry, IdInvariant bs →
      ∀ (i j : Nat) (a b : Battery), bs[i]? = some a → bs[j]? = some b →
        (0 ≤ a.ID ∧ a.ID < (NUM_BATTERIES : Int)) ∧ (a.ID = b.ID → i = j)) ∧
    (∀ (poll : Poll) (b : Battery), (updateBatteryMetrics poll b).ID = b.ID) ∧
    (∀ b : Battery, (checkSafety b).1.ID = b.ID) ∧
    (∀ (polls : Nat → Poll) (bs : Registry), IdInvariant bs →
      ∃ bs1, updateAllBatteries polls bs = some bs1 ∧ IdInvariant bs1) ∧
    (∀ (frame : Frame) (bs : Registry), IdInvariant bs →
      ∃ bs1 accessed, handleCANMessage frame bs = some (bs1, accessed) ∧ IdInvariant bs1) ∧
    (∀ bs : Registry, IdInvariant bs →
      ∃ bs1 effects, checkAllBatteries bs = some (bs1, effects) ∧ IdInvariant bs1) := by
  refine ⟨initializeBatteries_IdInvariant, ?_, updateBatteryMetrics_ID, ?_,
    updateAllBatteries_IdInvariant, handleCANMessage_IdInvariant, ?_⟩
  · intro bs h i j a b ha hb
    have hia := IdInvariant_ID bs h i a ha
    have hjb := IdInvariant_ID bs h j b hb
    have hi : i < NUM_BATTERIES := by
      rcases List.getElem?_eq_some.mp ha with ⟨hlt, _⟩
      rw [h.1] at hlt
      exact hlt
    refine ⟨⟨by omega, by omega⟩, ?_⟩
    intro hab
    omega
  · intro b
    rw [checkSafety_fst]
  · intro bs h
    obtain ⟨effects, he⟩ := checkAllBatteries_IdInvariant bs h
    exact ⟨bs, effects, he, h⟩

/-- C9 on the registry initialised with no frame available: the invariant
holds after initialisation and after the update loop, a frame and the safety
loop, run one after the other. -/
theorem registry_identity_invariant_witness :
    ∃ bs bs1 bs2 bs3 accessed effects,
      initializeBatteries noFramePolls batteries0 = some bs ∧ IdInvariant bs ∧
      updateAllBatteries frameTo3Polls bs = some bs1 ∧ IdInvariant bs1 ∧
      handleCANMessage frameTo7 bs1 = some (bs2, accessed) ∧ IdInvariant bs2 ∧
      checkAllBatteries bs2 = some (bs3, effects) ∧ IdInvariant bs3 := by
  obtain ⟨bs, h1, h2⟩ := registry_identity_invariant.1 noFramePolls
  obtain ⟨bs1, h3, h4⟩ := registry_identity_invariant.2.2.2.2.1 frameTo3Polls bs h2
  obtain ⟨bs2, accessed, h5, h6⟩ := registry_identity_invariant.2.2.2.2.2.1 frameTo7 bs1 h4
  obtain ⟨bs3, effects, h7, h8⟩ := registry_identity_invariant.2.2.2.2.2.2 bs2 h6
  exact ⟨bs, bs1, bs2, bs3, accessed, effects, h1, h2, h3, h4, h5, h6, h7, h8⟩

end BatteryManagement
